import Mathlib

/-!
Verification of the reconciliation engine of terraform-provider-nscale.

The development shallowly embeds internal/nscale/helper.go and
internal/nscale/error.go. Times are modelled as integer seconds, the
untyped results of Refresh closures as Options, and Go errors as a sum of
an APIError and a plain message. The generic poll loop
(retry.StateChangeConf of the terraform-plugin-sdk) is an external
dependency whose source is not part of this repository; it is modelled
from the specification, section 4.3, with time discretised into poll
ticks.
-/

namespace Nscale

/-- Tag is the coreapi.Tag record: a named label carrying a string value. -/
structure Tag where
  Name : String
  Value : String
deriving DecidableEq

/-- APIError from internal/nscale/error.go, restricted to the fields the
reconciliation helpers read (the remaining fields only feed debug logging). -/
structure APIError where
  StatusCode : Nat
  Code : String
  Message : String
deriving DecidableEq

/-- GoError models a Go error value as the helper code distinguishes it:
either an APIError is somewhere in its wrapping chain (the case errors.As
extracts), or it is any other error, carried as its message string. -/
inductive GoError where
  | api (e : APIError)
  | other (msg : String)
deriving DecidableEq

/-- AsAPIError from internal/nscale/error.go: the (value, ok) pair becomes
an Option. -/
def AsAPIError : GoError → Option APIError
  | .api e => some e
  | .other _ => none

/-- StatusNotFound is http.StatusNotFound of the Go standard library. -/
def StatusNotFound : Nat := 404

/-- Check repeated throughout helper.go:
ok and e.StatusCode == http.StatusNotFound after AsAPIError. -/
def isNotFoundError (err : GoError) : Bool :=
  match AsAPIError err with
  | some e => e.StatusCode == StatusNotFound
  | none => false

/-- Modelled from the spec: the provisioning-status enum of the coreapi
package (unikorn-cloud core openapi), an external dependency whose source
is not part of this repository. The spec, section 3, describes it as
Provisioning, Provisioned, Unknown plus further per-operation states;
deprovisioning and error stand for the latter. -/
inductive ResourceProvisioningStatus where
  | unknown
  | provisioning
  | provisioned
  | deprovisioning
  | error
deriving DecidableEq

/-- Wire string of a provisioning status, the string conversion applied by
the Refresh closure. -/
def ResourceProvisioningStatus.val : ResourceProvisioningStatus → String
  | .unknown => "unknown"
  | .provisioning => "provisioning"
  | .provisioned => "provisioned"
  | .deprovisioning => "deprovisioning"
  | .error => "error"

/-- ProjectScopedResourceReadMetadata restricted to the fields helper.go
reads: the provisioning status and the tag collection (nil modelled as
none). -/
structure ProjectScopedResourceReadMetadata where
  ProvisioningStatus : ResourceProvisioningStatus
  Tags : Option (List Tag)
deriving DecidableEq

/-- ResourceWriteMetadata restricted to the field WriteOperationTag
mutates. -/
structure ResourceWriteMetadata where
  Tags : Option (List Tag)
deriving DecidableEq

/-- TerraformOperationTagPrefix of helper.go, the reserved namespace of
operation tag keys. -/
def TerraformOperationTagNamespace : String := "terraform.nscale.com/"

/-- The defaultOperationTagMaxAge constant, 12 hours, in seconds. -/
def defaultOperationTagMaxAge : Int := 12 * 60 * 60

/-- Test of strings.HasPrefix(name, TerraformOperationTagPrefix), on the
underlying character lists. -/
def startsWithTagNamespace (name : String) : Bool :=
  TerraformOperationTagNamespace.data.isPrefixOf name.data

/-- WriteOperationTag from helper.go. The fresh UUID produced by
uuid.NewString and the RFC3339-formatted current time produced by time.Now
are standard-library effects passed in as arguments. The Go function
mutates the metadata in place and returns the key; here the mutated
metadata is returned alongside the key. -/
def WriteOperationTag (newUUIDStr nowStr : String)
    (metadata : ResourceWriteMetadata) : ResourceWriteMetadata × String :=
  let operationKey := TerraformOperationTagNamespace ++ newUUIDStr
  let tags :=
    match metadata.Tags with
    | none => []
    | some ts => ts
  ({ Tags := some (tags ++ [{ Name := operationKey, Value := nowStr }]) },
    operationKey)

/-- HasOperationTag from helper.go: a linear scan of the tag collection for
an exactly matching name; nil collection yields false. -/
def HasOperationTag (tags : Option (List Tag)) (operationTag : String) : Bool :=
  match tags with
  | none => false
  | some ts => ts.any fun tag => tag.Name == operationTag

/-- RemoveOperationTags from helper.go (StripReservedTags in the spec).
A tag whose name carries the reserved namespace is dropped when its value
does not parse under the RFC3339 layout or when it is older than
defaultOperationTagMaxAge; every other tag is kept. timeParse stands for
time.Parse with the RFC3339 layout (none when parsing fails) and now for
time.Now, so that time.Since writtenAt is now - writtenAt. -/
def RemoveOperationTags (timeParse : String → Option Int) (now : Int)
    (tags : Option (List Tag)) : Option (List Tag) :=
  match tags with
  | none => none
  | some ts =>
    some (ts.filter fun tag =>
      if startsWithTagNamespace tag.Name then
        match timeParse tag.Value with
        | none => false
        | some writtenAt =>
          if now - writtenAt > defaultOperationTagMaxAge then false else true
      else true)

/-- FetchResult is one outcome of a watcher GetFunc call: under the Go
convention either a non-nil error, or a resource with its read metadata. -/
inductive FetchResult (T : Type) where
  | ok (result : T) (metadata : ProjectScopedResourceReadMetadata)
  | err (e : GoError)

/-- A fetch outcome that is a not-found API error. -/
def isNotFoundFetch {T : Type} : FetchResult T → Bool
  | .ok _ _ => false
  | .err e => isNotFoundError e

/-- RefreshResult is the (any, string, error) triple a StateChangeConf
Refresh closure returns; the untyped first component is modelled as an
Option (Go nil versus a value). -/
structure RefreshResult (T : Type) where
  result : Option T
  state : String
  err : Option GoError
deriving DecidableEq

/-- Refresh closure of CreateStateWatcher.Wait, applied to one GetFunc
outcome: a not-found read is absorbed as a pending Unknown state, any
other error is passed through, and a found resource reports its own
provisioning status verbatim. -/
def createRefresh {T : Type} : FetchResult T → RefreshResult T
  | .err e =>
    if isNotFoundError e then
      { result := none, state := ResourceProvisioningStatus.unknown.val,
        err := none }
    else
      { result := none, state := "", err := some e }
  | .ok result metadata =>
    { result := some result, state := metadata.ProvisioningStatus.val,
      err := none }

/-- Pending set of CreateStateWatcher.Wait. -/
def createPendingStates : List String :=
  [ResourceProvisioningStatus.provisioning.val,
    ResourceProvisioningStatus.unknown.val]

/-- Target set of CreateStateWatcher.Wait. -/
def createTargetStates : List String :=
  [ResourceProvisioningStatus.provisioned.val]

/-- UpdateStateUpdating from helper.go. -/
def UpdateStateUpdating : String := "updating"

/-- UpdateStateErrored from helper.go. -/
def UpdateStateErrored : String := "errored"

/-- UpdateStateUpdated from helper.go. -/
def UpdateStateUpdated : String := "updated"

/-- Refresh closure of UpdateStateWatcher.Wait: any read error is fatal,
and a found resource is terminal exactly when its tag collection carries
the expected operation tag key. -/
def updateRefresh {T : Type} (operationTagKey : String) :
    FetchResult T → RefreshResult T
  | .err e => { result := none, state := UpdateStateErrored, err := some e }
  | .ok result metadata =>
    if HasOperationTag metadata.Tags operationTagKey then
      { result := some result, state := UpdateStateUpdated, err := none }
    else
      { result := some result, state := UpdateStateUpdating, err := none }

/-- DeleteStateDeleting from helper.go. -/
def DeleteStateDeleting : String := "deleting"

/-- DeleteStateErrored from helper.go. -/
def DeleteStateErrored : String := "errored"

/-- DeleteStateDeleted from helper.go. -/
def DeleteStateDeleted : String := "deleted"

/-- Refresh closure of DeleteStateWatcher.Wait: a successful read means the
resource still exists (pending), a not-found read is terminal success, any
other error is fatal. The Go closure discards the fetched value, so the
resource type is Unit. -/
def deleteRefresh : FetchResult Unit → RefreshResult Unit
  | .ok _ _ =>
    { result := some (), state := DeleteStateDeleting, err := none }
  | .err e =>
    if isNotFoundError e then
      { result := some (), state := DeleteStateDeleted, err := none }
    else
      { result := none, state := DeleteStateErrored, err := some e }

/-- PollOutcome of one reconciliation wait, the tagged result of the spec,
section 3: success with the final snapshot, failure with the fetch error,
or an exhausted time budget. -/
inductive PollOutcome (T : Type) where
  | Succeeded (snapshot : Option T)
  | Failed (e : GoError)
  | TimedOut
deriving DecidableEq

/-- Modelled from the spec: the generic poll loop,
retry.StateChangeConf.WaitForStateContext of the terraform-plugin-sdk,
an external dependency whose source is not part of this repository. Time
is discretised into poll ticks: refresh gives the Refresh result at each
tick, fuel is the number of ticks left in the 30-minute budget, and tick
is the index of the current tick. Per section 4.3: a refresh error is
returned immediately with no further polling, a state in the target set
returns success with the snapshot, a pending state polls again, and an
exhausted budget times out; a state in neither set is a failure, as in
the underlying helper. The second component of the result is the tick at
which the loop stopped. -/
def pollLoopFrom {T : Type} (pending target : List String)
    (refresh : Nat → RefreshResult T) : Nat → Nat → PollOutcome T × Nat
  | 0, tick => (.TimedOut, tick)
  | fuel + 1, tick =>
    let r := refresh tick
    match r.err with
    | some e => (.Failed e, tick)
    | none =>
      if r.state ∈ target then (.Succeeded r.result, tick)
      else if r.state ∈ pending then
        pollLoopFrom pending target refresh fuel (tick + 1)
      else (.Failed (.other ("unexpected state " ++ r.state)), tick)

/-- A refresh result that keeps the loop polling: no error, a state that is
not terminal, and a state in the pending set. -/
def keepsPolling {T : Type} (pending target : List String)
    (r : RefreshResult T) : Prop :=
  r.err = none ∧ r.state ∉ target ∧ r.state ∈ pending

/-- The assertState helper narrows the untyped poll result back to the
resource type; in the typed model the only failure case left is a nil
result. -/
def assertState {T : Type} : Option T → Option T × Bool
  | some result => (some result, true)
  | none => (none, false)

/-- CreateStateWatcher from helper.go; GetFunc, called once per poll tick,
is modelled as a function of the tick index, since the remote snapshot
changes over time. -/
structure CreateStateWatcher (T : Type) where
  ResourceTitle : String
  ResourceName : String
  GetFunc : Nat → FetchResult T

/-- CreateStateWatcher.Wait: drive the poll loop with the create pending
and target state sets over the create Refresh closure; on success narrow
the final snapshot, on failure or timeout report not-ok. -/
def CreateStateWatcher.Wait {T : Type} (w : CreateStateWatcher T)
    (fuel : Nat) : Option T × Bool :=
  match (pollLoopFrom createPendingStates createTargetStates
      (fun tick => createRefresh (w.GetFunc tick)) fuel 0).1 with
  | .Succeeded s => assertState s
  | _ => (none, false)

/-- UpdateStateWatcher from helper.go. -/
structure UpdateStateWatcher (T : Type) where
  ResourceTitle : String
  ResourceName : String
  GetFunc : Nat → FetchResult T

/-- UpdateStateWatcher.Wait: drive the poll loop with pending state
updating and target state updated over the update Refresh closure bound to
the expected operation tag key. -/
def UpdateStateWatcher.Wait {T : Type} (w : UpdateStateWatcher T)
    (operationTagKey : String) (fuel : Nat) : Option T × Bool :=
  match (pollLoopFrom [UpdateStateUpdating] [UpdateStateUpdated]
      (fun tick => updateRefresh operationTagKey (w.GetFunc tick)) fuel 0).1 with
  | .Succeeded s => assertState s
  | _ => (none, false)

/-- DeleteStateWatcher from helper.go. -/
structure DeleteStateWatcher where
  ResourceTitle : String
  ResourceName : String
  GetFunc : Nat → FetchResult Unit

/-- DeleteStateWatcher.Wait: drive the poll loop with pending state
deleting and target state deleted over the delete Refresh closure; the
fetched value is discarded, only ok is reported. -/
def DeleteStateWatcher.Wait (w : DeleteStateWatcher) (fuel : Nat) : Bool :=
  match (pollLoopFrom [DeleteStateDeleting] [DeleteStateDeleted]
      (fun tick => deleteRefresh (w.GetFunc tick)) fuel 0).1 with
  | .Succeeded _ => true
  | _ => false

/-- When the first k refresh results keep the loop polling and the refresh
at tick t0 + k reports a target state without error, the loop stops there
with that snapshot, provided the budget covers tick k. -/
theorem pollLoopFrom_succeedsAt {T : Type} (pending target : List String)
    (refresh : Nat → RefreshResult T) (k : Nat) :
    ∀ fuel t0 : Nat, k < fuel →
    (∀ i, i < k → keepsPolling pending target (refresh (t0 + i))) →
    (refresh (t0 + k)).err = none →
    (refresh (t0 + k)).state ∈ target →
    pollLoopFrom pending target refresh fuel t0 =
      (.Succeeded (refresh (t0 + k)).result, t0 + k) := by
  induction k with
  | zero =>
    intro fuel t0 hf _ herr hst
    rw [Nat.add_zero] at herr hst ⊢
    match fuel, hf with
    | fuel + 1, _ =>
      simp only [pollLoopFrom]
      rw [herr, if_pos hst]
  | succ k ih =>
    intro fuel t0 hf hkeep herr hst
    match fuel, hf with
    | fuel + 1, hf =>
      have h0 := hkeep 0 (Nat.succ_pos k)
      rw [Nat.add_zero] at h0
      obtain ⟨h0err, h0nt, h0p⟩ := h0
      simp only [pollLoopFrom]
      rw [h0err, if_neg h0nt, if_pos h0p]
      have hshift : t0 + 1 + k = t0 + (k + 1) := by omega
      have hkeep' : ∀ i, i < k → keepsPolling pending target (refresh (t0 + 1 + i)) := by
        intro i hi
        have : t0 + 1 + i = t0 + (i + 1) := by omega
        rw [this]
        exact hkeep (i + 1) (by omega)
      have := ih fuel (t0 + 1) (by omega) hkeep'
        (by rw [hshift]; exact herr) (by rw [hshift]; exact hst)
      rw [hshift] at this
      exact this

/-- When the first k refresh results keep the loop polling and the refresh
at tick t0 + k reports an error, the loop stops there with that error and
polls no further, provided the budget covers tick k. -/
theorem pollLoopFrom_failsAt {T : Type} (pending target : List String)
    (refresh : Nat → RefreshResult T) (k : Nat) :
    ∀ fuel t0 : Nat, k < fuel →
    (∀ i, i < k → keepsPolling pending target (refresh (t0 + i))) →
    ∀ e : GoError, (refresh (t0 + k)).err = some e →
    pollLoopFrom pending target refresh fuel t0 = (.Failed e, t0 + k) := by
  induction k with
  | zero =>
    intro fuel t0 hf _ e herr
    rw [Nat.add_zero] at herr ⊢
    match fuel, hf with
    | fuel + 1, _ =>
      simp only [pollLoopFrom]
      rw [herr]
  | succ k ih =>
    intro fuel t0 hf hkeep e herr
    match fuel, hf with
    | fuel + 1, hf =>
      have h0 := hkeep 0 (Nat.succ_pos k)
      rw [Nat.add_zero] at h0
      obtain ⟨h0err, h0nt, h0p⟩ := h0
      simp only [pollLoopFrom]
      rw [h0err, if_neg h0nt, if_pos h0p]
      have hshift : t0 + 1 + k = t0 + (k + 1) := by omega
      have hkeep' : ∀ i, i < k → keepsPolling pending target (refresh (t0 + 1 + i)) := by
        intro i hi
        have : t0 + 1 + i = t0 + (i + 1) := by omega
        rw [this]
        exact hkeep (i + 1) (by omega)
      have := ih fuel (t0 + 1) (by omega) hkeep' e (by rw [hshift]; exact herr)
      rw [hshift] at this
      exact this

/-- When every refresh result inside the budget keeps the loop polling, the
loop exhausts its budget and times out. -/
theorem pollLoopFrom_timesOut {T : Type} (pending target : List String)
    (refresh : Nat → RefreshResult T) :
    ∀ fuel t0 : Nat,
    (∀ i, i < fuel → keepsPolling pending target (refresh (t0 + i))) →
    pollLoopFrom pending target refresh fuel t0 = (.TimedOut, t0 + fuel) := by
  intro fuel
  induction fuel with
  | zero =>
    intro t0 _
    simp [pollLoopFrom]
  | succ fuel ih =>
    intro t0 hkeep
    have h0 := hkeep 0 (Nat.succ_pos fuel)
    rw [Nat.add_zero] at h0
    obtain ⟨h0err, h0nt, h0p⟩ := h0
    simp only [pollLoopFrom]
    rw [h0err, if_neg h0nt, if_pos h0p]
    have hkeep' : ∀ i, i < fuel → keepsPolling pending target (refresh (t0 + 1 + i)) := by
      intro i hi
      have : t0 + 1 + i = t0 + (i + 1) := by omega
      rw [this]
      exact hkeep (i + 1) (by omega)
    have := ih (t0 + 1) hkeep'
    rw [this]
    have : t0 + 1 + fuel = t0 + (fuel + 1) := by omega
    rw [this]

/-- Not-found fetch outcomes keep the create loop polling in state
Unknown. -/
theorem createRefresh_notFound_keepsPolling {T : Type} (f : FetchResult T)
    (h : isNotFoundFetch f = true) :
    keepsPolling createPendingStates createTargetStates (createRefresh f) := by
  cases f with
  | ok r m => simp [isNotFoundFetch] at h
  | err e =>
    simp only [isNotFoundFetch] at h
    have heq : createRefresh (T := T) (.err e) =
        { result := none, state := ResourceProvisioningStatus.unknown.val,
          err := none } := by
      simp [createRefresh, h]
    rw [heq]
    refine ⟨rfl, ?_, ?_⟩
    · show ResourceProvisioningStatus.unknown.val ∉ createTargetStates
      decide
    · show ResourceProvisioningStatus.unknown.val ∈ createPendingStates
      decide

/-- C1: create reconciliation tolerates arbitrarily many not-found reads:
for every k, if GetFunc reports not-found on each of the first k poll
ticks and a snapshot with provisioning status Provisioned on tick k, then
CreateStateWatcher.Wait returns ok with that snapshot, provided the time
budget covers tick k. -/
theorem createWait_tolerates_notFound {T : Type} (w : CreateStateWatcher T)
    (k fuel : Nat) (snap : T) (meta : ProjectScopedResourceReadMetadata)
    (hf : k < fuel)
    (hnf : ∀ i, i < k → isNotFoundFetch (w.GetFunc i) = true)
    (hk : w.GetFunc k = .ok snap meta)
    (hst : meta.ProvisioningStatus = .provisioned) :
    w.Wait fuel = (some snap, true) := by
  have hkeep : ∀ i, i < k → keepsPolling createPendingStates createTargetStates
      (createRefresh (w.GetFunc (0 + i))) := by
    intro i hi
    rw [Nat.zero_add]
    exact createRefresh_notFound_keepsPolling _ (hnf i hi)
  have hrk : createRefresh (w.GetFunc (0 + k)) =
      { result := some snap, state := meta.ProvisioningStatus.val, err := none } := by
    rw [Nat.zero_add, hk, createRefresh]
  have hpoll := pollLoopFrom_succeedsAt createPendingStates createTargetStates
    (fun tick => createRefresh (w.GetFunc tick)) k fuel 0 hf hkeep
    (by show (createRefresh (w.GetFunc (0 + k))).err = none; rw [hrk])
    (by show (createRefresh (w.GetFunc (0 + k))).state ∈ createTargetStates
        rw [hrk, hst]
        show ResourceProvisioningStatus.provisioned.val ∈ createTargetStates
        decide)
  unfold CreateStateWatcher.Wait
  rw [hpoll]
  show assertState (createRefresh (w.GetFunc (0 + k))).result = (some snap, true)
  rw [hrk]
  rfl

/-- Concrete create scenario: the fetch reports not-found on the first two
ticks and a Provisioned snapshot on the third. -/
def createNotFoundScenario : Nat → FetchResult Nat := fun i =>
  if i < 2 then .err (.api { StatusCode := 404, Code := "", Message := "" })
  else .ok 7 { ProvisioningStatus := .provisioned, Tags := none }

/-- Witness for C1 at k = 2 with a budget of five ticks. -/
theorem createWait_tolerates_notFound_witness :
    (CreateStateWatcher.mk "Network" "network" createNotFoundScenario).Wait 5 =
      (some 7, true) :=
  createWait_tolerates_notFound
    (CreateStateWatcher.mk "Network" "network" createNotFoundScenario)
    2 5 7 { ProvisioningStatus := .provisioned, Tags := none }
    (by omega) (by decide) rfl rfl

/-- C5: the create-variant condition evaluator applied to one fetch
result: a not-found error maps to a pending result in state Unknown and
never to a failure; a found snapshot's own provisioning status is emitted
verbatim as the state, it lies in the pending set exactly when the status
is Provisioning or Unknown, and in the target set exactly when the status
is Provisioned. -/
theorem createRefresh_evaluator_cases {T : Type} :
    (∀ e : GoError, isNotFoundError e = true →
      createRefresh (T := T) (.err e) =
        { result := none, state := ResourceProvisioningStatus.unknown.val,
          err := none } ∧
      ResourceProvisioningStatus.unknown.val ∈ createPendingStates ∧
      ResourceProvisioningStatus.unknown.val ∉ createTargetStates) ∧
    (∀ (r : T) (meta : ProjectScopedResourceReadMetadata),
      createRefresh (.ok r meta) =
        { result := some r, state := meta.ProvisioningStatus.val,
          err := none } ∧
      (meta.ProvisioningStatus.val ∈ createPendingStates ↔
        meta.ProvisioningStatus = .provisioning ∨
          meta.ProvisioningStatus = .unknown) ∧
      (meta.ProvisioningStatus.val ∈ createTargetStates ↔
        meta.ProvisioningStatus = .provisioned)) := by
  constructor
  · intro e he
    refine ⟨?_, by decide, by decide⟩
    simp [createRefresh, he]
  · intro r meta
    obtain ⟨ps, tags⟩ := meta
    refine ⟨rfl, ?_, ?_⟩ <;> cases ps <;>
      simp [createPendingStates, createTargetStates, ResourceProvisioningStatus.val]

/-- Witness for C5: the not-found branch at a 404 APIError and the found
branch at a Provisioned snapshot. -/
theorem createRefresh_evaluator_cases_witness :
    (createRefresh (T := Nat)
        (.err (.api { StatusCode := 404, Code := "", Message := "" })) =
      { result := none, state := ResourceProvisioningStatus.unknown.val,
        err := none } ∧
      ResourceProvisioningStatus.unknown.val ∈ createPendingStates ∧
      ResourceProvisioningStatus.unknown.val ∉ createTargetStates) ∧
    (createRefresh (.ok 7 { ProvisioningStatus := .provisioned, Tags := none }) =
      { result := some 7,
        state := ResourceProvisioningStatus.provisioned.val, err := none } ∧
      (ResourceProvisioningStatus.provisioned.val ∈ createTargetStates ↔
        (({ ProvisioningStatus := .provisioned, Tags := none } :
          ProjectScopedResourceReadMetadata)).ProvisioningStatus = .provisioned)) := by
  refine ⟨createRefresh_evaluator_cases.1 _ rfl, ?_, ?_⟩
  · exact (createRefresh_evaluator_cases.2 7
      { ProvisioningStatus := .provisioned, Tags := none }).1
  · exact (createRefresh_evaluator_cases.2 7
      { ProvisioningStatus := .provisioned, Tags := none }).2.2

/-- A successful fetch whose tag collection lacks the expected key keeps
the update loop polling in state updating. -/
theorem updateRefresh_noTag_keepsPolling {T : Type} (key : String) (r : T)
    (m : ProjectScopedResourceReadMetadata)
    (h : HasOperationTag m.Tags key = false) :
    keepsPolling [UpdateStateUpdating] [UpdateStateUpdated]
      (updateRefresh key (.ok r m)) := by
  have heq : updateRefresh key (FetchResult.ok r m) =
      { result := some r, state := UpdateStateUpdating, err := none } := by
    simp [updateRefresh, h]
  rw [heq]
  refine ⟨rfl, ?_, ?_⟩
  · show UpdateStateUpdating ∉ [UpdateStateUpdated]
    decide
  · show UpdateStateUpdating ∈ [UpdateStateUpdating]
    decide

/-- C2: update reconciliation with expected tag key: when no fetched
snapshot carries the key inside the budget, Wait times out; when the first
snapshot carrying the key is at tick k, the loop stops with success
exactly at tick k and never earlier; a tag with any different name, in
particular one under the same reserved namespace, does not satisfy the
wait. -/
theorem updateWait_tag_exactness {T : Type} (w : UpdateStateWatcher T)
    (key : String) (fuel : Nat) :
    ((∀ i, i < fuel → ∃ r m, w.GetFunc i = .ok r m ∧
        HasOperationTag m.Tags key = false) →
      pollLoopFrom [UpdateStateUpdating] [UpdateStateUpdated]
        (fun tick => updateRefresh key (w.GetFunc tick)) fuel 0 =
        (.TimedOut, fuel) ∧
      w.Wait key fuel = (none, false)) ∧
    (∀ (k : Nat) (snap : T) (meta : ProjectScopedResourceReadMetadata),
      k < fuel →
      (∀ i, i < k → ∃ r m, w.GetFunc i = .ok r m ∧
        HasOperationTag m.Tags key = false) →
      w.GetFunc k = .ok snap meta → HasOperationTag meta.Tags key = true →
      pollLoopFrom [UpdateStateUpdating] [UpdateStateUpdated]
        (fun tick => updateRefresh key (w.GetFunc tick)) fuel 0 =
        (.Succeeded (some snap), k) ∧
      w.Wait key fuel = (some snap, true)) ∧
    (∀ s v t : String, s ≠ t →
      HasOperationTag (some [{ Name := s, Value := v }]) t = false) := by
  refine ⟨?_, ?_, ?_⟩
  · intro hall
    have hkeep : ∀ i, i < fuel → keepsPolling [UpdateStateUpdating]
        [UpdateStateUpdated] (updateRefresh key (w.GetFunc (0 + i))) := by
      intro i hi
      rw [Nat.zero_add]
      obtain ⟨r, m, hg, htag⟩ := hall i hi
      rw [hg]
      exact updateRefresh_noTag_keepsPolling key r m htag
    have hpoll := pollLoopFrom_timesOut [UpdateStateUpdating]
      [UpdateStateUpdated] (fun tick => updateRefresh key (w.GetFunc tick))
      fuel 0 hkeep
    rw [Nat.zero_add] at hpoll
    refine ⟨hpoll, ?_⟩
    unfold UpdateStateWatcher.Wait
    rw [hpoll]
  · intro k snap meta hkf hbefore hk htag
    have hkeep : ∀ i, i < k → keepsPolling [UpdateStateUpdating]
        [UpdateStateUpdated] (updateRefresh key (w.GetFunc (0 + i))) := by
      intro i hi
      rw [Nat.zero_add]
      obtain ⟨r, m, hg, hno⟩ := hbefore i hi
      rw [hg]
      exact updateRefresh_noTag_keepsPolling key r m hno
    have hrk : updateRefresh key (w.GetFunc (0 + k)) =
        { result := some snap, state := UpdateStateUpdated, err := none } := by
      rw [Nat.zero_add, hk]
      simp [updateRefresh, htag]
    have hb : (fun tick => updateRefresh key (w.GetFunc tick)) (0 + k) =
        updateRefresh key (w.GetFunc (0 + k)) := rfl
    have hpoll := pollLoopFrom_succeedsAt [UpdateStateUpdating]
      [UpdateStateUpdated] (fun tick => updateRefresh key (w.GetFunc tick))
      k fuel 0 hkf hkeep
      (by show (updateRefresh key (w.GetFunc (0 + k))).err = none; rw [hrk])
      (by show (updateRefresh key (w.GetFunc (0 + k))).state ∈
            [UpdateStateUpdated]
          rw [hrk]
          show UpdateStateUpdated ∈ [UpdateStateUpdated]
          decide)
    have hpoll2 : pollLoopFrom [UpdateStateUpdating] [UpdateStateUpdated]
        (fun tick => updateRefresh key (w.GetFunc tick)) fuel 0 =
        (.Succeeded (some snap), k) := by
      rw [hpoll, hb, hrk, Nat.zero_add]
    refine ⟨hpoll2, ?_⟩
    unfold UpdateStateWatcher.Wait
    rw [hpoll2]
    rfl
  · intro s v t hne
    simp only [HasOperationTag, List.any_cons, List.any_nil, Bool.or_false]
    exact beq_eq_false_iff_ne.mpr hne

/-- C3: delete reconciliation: every successful fetch keeps the loop
pending in state deleting; Wait succeeds at the first tick whose fetch
reports not-found, no matter how many still-exists ticks preceded it; and
a non-not-found fetch error stops the loop at that tick with that error
rather than a timeout. -/
theorem deleteWait_spec (w : DeleteStateWatcher) (fuel : Nat) :
    (∀ (u : Unit) (m : ProjectScopedResourceReadMetadata),
      deleteRefresh (.ok u m) =
        { result := some (), state := DeleteStateDeleting, err := none }) ∧
    (∀ k : Nat, k < fuel →
      (∀ i, i < k → ∃ u m, w.GetFunc i = .ok u m) →
      isNotFoundFetch (w.GetFunc k) = true →
      pollLoopFrom [DeleteStateDeleting] [DeleteStateDeleted]
        (fun tick => deleteRefresh (w.GetFunc tick)) fuel 0 =
        (.Succeeded (some ()), k) ∧
      w.Wait fuel = true) ∧
    (∀ (j : Nat) (e : GoError), j < fuel →
      (∀ i, i < j → ∃ u m, w.GetFunc i = .ok u m) →
      w.GetFunc j = .err e → isNotFoundError e = false →
      pollLoopFrom [DeleteStateDeleting] [DeleteStateDeleted]
        (fun tick => deleteRefresh (w.GetFunc tick)) fuel 0 =
        (.Failed e, j) ∧
      w.Wait fuel = false) := by
  have hok : ∀ (u : Unit) (m : ProjectScopedResourceReadMetadata),
      deleteRefresh (.ok u m) =
        { result := some (), state := DeleteStateDeleting, err := none } :=
    fun _ _ => rfl
  have hkeepOf : ∀ (g : Nat → FetchResult Unit) (k : Nat),
      (∀ i, i < k → ∃ u m, g i = .ok u m) →
      ∀ i, i < k → keepsPolling [DeleteStateDeleting] [DeleteStateDeleted]
        (deleteRefresh (g (0 + i))) := by
    intro g k hex i hi
    rw [Nat.zero_add]
    obtain ⟨u, m, hg⟩ := hex i hi
    rw [hg, hok]
    exact ⟨rfl, by decide, by decide⟩
  refine ⟨hok, ?_, ?_⟩
  · intro k hkf hex hnf
    have hrk : deleteRefresh (w.GetFunc (0 + k)) =
        { result := some (), state := DeleteStateDeleted, err := none } := by
      rw [Nat.zero_add]
      cases hg : w.GetFunc k with
      | ok u m => rw [hg] at hnf; simp [isNotFoundFetch] at hnf
      | err e =>
        rw [hg] at hnf
        simp only [isNotFoundFetch] at hnf
        simp [deleteRefresh, hnf]
    have hb : (fun tick => deleteRefresh (w.GetFunc tick)) (0 + k) =
        deleteRefresh (w.GetFunc (0 + k)) := rfl
    have hpoll := pollLoopFrom_succeedsAt [DeleteStateDeleting]
      [DeleteStateDeleted] (fun tick => deleteRefresh (w.GetFunc tick))
      k fuel 0 hkf (hkeepOf w.GetFunc k hex)
      (by show (deleteRefresh (w.GetFunc (0 + k))).err = none; rw [hrk])
      (by show (deleteRefresh (w.GetFunc (0 + k))).state ∈
            [DeleteStateDeleted]
          rw [hrk]
          show DeleteStateDeleted ∈ [DeleteStateDeleted]
          decide)
    have hpoll2 : pollLoopFrom [DeleteStateDeleting] [DeleteStateDeleted]
        (fun tick => deleteRefresh (w.GetFunc tick)) fuel 0 =
        (.Succeeded (some ()), k) := by
      rw [hpoll, hb, hrk, Nat.zero_add]
    refine ⟨hpoll2, ?_⟩
    unfold DeleteStateWatcher.Wait
    rw [hpoll2]
  · intro j e hjf hex hj hne
    have hrj : deleteRefresh (w.GetFunc (0 + j)) =
        { result := none, state := DeleteStateErrored, err := some e } := by
      rw [Nat.zero_add, hj]
      simp [deleteRefresh, hne]
    have hpoll := pollLoopFrom_failsAt [DeleteStateDeleting]
      [DeleteStateDeleted] (fun tick => deleteRefresh (w.GetFunc tick))
      j fuel 0 hjf (hkeepOf w.GetFunc j hex) e
      (by show (deleteRefresh (w.GetFunc (0 + j))).err = some e; rw [hrj])
    rw [Nat.zero_add] at hpoll
    refine ⟨hpoll, ?_⟩
    unfold DeleteStateWatcher.Wait
    rw [hpoll]

/-- C4: fail-fast on fatal errors: when a tick reports a non-not-found
error in the create variant, or any error at all in the update variant,
and every earlier tick kept the loop polling, the loop stops at that very
tick with that error, performing no further polling, and Wait reports
not-ok. -/
theorem wait_failFast :
    (∀ (T : Type) (w : CreateStateWatcher T) (j fuel : Nat) (e : GoError),
      j < fuel →
      (∀ i, i < j → keepsPolling createPendingStates createTargetStates
        (createRefresh (w.GetFunc i))) →
      w.GetFunc j = .err e → isNotFoundError e = false →
      pollLoopFrom createPendingStates createTargetStates
        (fun tick => createRefresh (w.GetFunc tick)) fuel 0 =
        (.Failed e, j) ∧
      w.Wait fuel = (none, false)) ∧
    (∀ (T : Type) (w : UpdateStateWatcher T) (key : String) (j fuel : Nat)
        (e : GoError),
      j < fuel →
      (∀ i, i < j → keepsPolling [UpdateStateUpdating] [UpdateStateUpdated]
        (updateRefresh key (w.GetFunc i))) →
      w.GetFunc j = .err e →
      pollLoopFrom [UpdateStateUpdating] [UpdateStateUpdated]
        (fun tick => updateRefresh key (w.GetFunc tick)) fuel 0 =
        (.Failed e, j) ∧
      w.Wait key fuel = (none, false)) := by
  constructor
  · intro T w j fuel e hjf hkeep hj hne
    have hrj : createRefresh (w.GetFunc (0 + j)) =
        { result := none, state := "", err := some e } := by
      rw [Nat.zero_add, hj]
      simp [createRefresh, hne]
    have hpoll := pollLoopFrom_failsAt createPendingStates createTargetStates
      (fun tick => createRefresh (w.GetFunc tick)) j fuel 0 hjf
      (by intro i hi; rw [Nat.zero_add]; exact hkeep i hi) e
      (by show (createRefresh (w.GetFunc (0 + j))).err = some e; rw [hrj])
    rw [Nat.zero_add] at hpoll
    refine ⟨hpoll, ?_⟩
    unfold CreateStateWatcher.Wait
    rw [hpoll]
  · intro T w key j fuel e hjf hkeep hj
    have hrj : updateRefresh key (w.GetFunc (0 + j)) =
        { result := none, state := UpdateStateErrored, err := some e } := by
      rw [Nat.zero_add, hj, updateRefresh]
    have hpoll := pollLoopFrom_failsAt [UpdateStateUpdating]
      [UpdateStateUpdated] (fun tick => updateRefresh key (w.GetFunc tick))
      j fuel 0 hjf
      (by intro i hi; rw [Nat.zero_add]; exact hkeep i hi) e
      (by show (updateRefresh key (w.GetFunc (0 + j))).err = some e
          rw [hrj])
    rw [Nat.zero_add] at hpoll
    refine ⟨hpoll, ?_⟩
    unfold UpdateStateWatcher.Wait
    rw [hpoll]

/-- Concrete update scenario of the spec, section 8: empty tags, then a
tag of a different mutation under the same reserved namespace, then the
expected tag. -/
def updateTagScenario : Nat → FetchResult Nat := fun i =>
  if i == 0 then
    .ok 1 { ProvisioningStatus := .provisioned, Tags := some [] }
  else if i == 1 then
    .ok 2 { ProvisioningStatus := .provisioned,
            Tags := some [{ Name := "terraform.nscale.com/xyz",
                            Value := "2025-01-01T00:00:00Z" }] }
  else
    .ok 3 { ProvisioningStatus := .provisioned,
            Tags := some [{ Name := "terraform.nscale.com/abc",
                            Value := "2025-01-01T00:00:00Z" }] }

/-- Witness for C2 on the concrete scenario: success exactly on the third
tick, and the xyz tag does not satisfy the abc key. -/
theorem updateWait_tag_exactness_witness :
    (pollLoopFrom [UpdateStateUpdating] [UpdateStateUpdated]
        (fun tick => updateRefresh "terraform.nscale.com/abc"
          (updateTagScenario tick)) 60 0 =
      (.Succeeded (some 3), 2)) ∧
    (UpdateStateWatcher.mk "Instance" "instance" updateTagScenario).Wait
      "terraform.nscale.com/abc" 60 = (some 3, true) ∧
    HasOperationTag
      (some [{ Name := "terraform.nscale.com/xyz",
               Value := "2025-01-01T00:00:00Z" }])
      "terraform.nscale.com/abc" = false := by
  have hbefore : ∀ i, i < 2 → ∃ r m,
      (UpdateStateWatcher.mk "Instance" "instance" updateTagScenario).GetFunc i =
        FetchResult.ok r m ∧
      HasOperationTag m.Tags "terraform.nscale.com/abc" = false := by
    intro i hi
    interval_cases i
    · exact ⟨1, _, rfl, by decide⟩
    · exact ⟨2, _, rfl, by decide⟩
  have h := (updateWait_tag_exactness
    (UpdateStateWatcher.mk "Instance" "instance" updateTagScenario)
    "terraform.nscale.com/abc" 60).2.1 2 3
    { ProvisioningStatus := .provisioned,
      Tags := some [{ Name := "terraform.nscale.com/abc",
                      Value := "2025-01-01T00:00:00Z" }] }
    (by omega) hbefore rfl (by decide)
  refine ⟨h.1, h.2, ?_⟩
  exact (updateWait_tag_exactness
    (UpdateStateWatcher.mk "Instance" "instance" updateTagScenario)
    "terraform.nscale.com/abc" 60).2.2
    "terraform.nscale.com/xyz" "2025-01-01T00:00:00Z"
    "terraform.nscale.com/abc" (by decide)

/-- Concrete delete scenario of the spec, section 8: the resource still
exists on two ticks, then the read reports not-found. -/
def deleteOkNotFoundScenario : Nat → FetchResult Unit := fun i =>
  if i < 2 then .ok () { ProvisioningStatus := .provisioned, Tags := none }
  else .err (.api { StatusCode := 404, Code := "", Message := "" })

/-- Concrete delete scenario of the spec, section 8: the resource still
exists on the first tick, then the read fails fatally. -/
def deleteFatalScenario : Nat → FetchResult Unit := fun i =>
  if i == 0 then .ok () { ProvisioningStatus := .provisioned, Tags := none }
  else .err (.other "connection reset")

/-- Witness for C3 on the two concrete scenarios: success on the third
tick after two still-exists ticks, and the fatal error surfaced on the
second tick instead of a timeout. -/
theorem deleteWait_spec_witness :
    (pollLoopFrom [DeleteStateDeleting] [DeleteStateDeleted]
        (fun tick => deleteRefresh (deleteOkNotFoundScenario tick)) 60 0 =
      (.Succeeded (some ()), 2)) ∧
    (DeleteStateWatcher.mk "Network" "network" deleteOkNotFoundScenario).Wait
      60 = true ∧
    (pollLoopFrom [DeleteStateDeleting] [DeleteStateDeleted]
        (fun tick => deleteRefresh (deleteFatalScenario tick)) 60 0 =
      (.Failed (.other "connection reset"), 1)) ∧
    (DeleteStateWatcher.mk "Network" "network" deleteFatalScenario).Wait
      60 = false := by
  have h1 := (deleteWait_spec
    (DeleteStateWatcher.mk "Network" "network" deleteOkNotFoundScenario)
    60).2.1 2 (by omega)
    (by intro i hi
        interval_cases i
        · exact ⟨(), _, rfl⟩
        · exact ⟨(), _, rfl⟩)
    (by decide)
  have h2 := (deleteWait_spec
    (DeleteStateWatcher.mk "Network" "network" deleteFatalScenario)
    60).2.2 1 (.other "connection reset") (by omega)
    (by intro i hi
        interval_cases i
        exact ⟨(), _, rfl⟩)
    rfl (by decide)
  exact ⟨h1.1, h1.2, h2.1, h2.2⟩

/-- Concrete create scenario for C4: a Provisioning snapshot, then a fatal
server error. -/
def createFatalScenario : Nat → FetchResult Nat := fun i =>
  if i == 0 then .ok 4 { ProvisioningStatus := .provisioning, Tags := none }
  else .err (.api { StatusCode := 500, Code := "internal", Message := "" })

/-- Concrete update scenario for C4: a snapshot without the expected tag,
then a fatal read error. -/
def updateFatalScenario : Nat → FetchResult Nat := fun i =>
  if i == 0 then .ok 4 { ProvisioningStatus := .provisioned, Tags := some [] }
  else .err (.other "connection reset")

/-- Witness for C4 on the two concrete scenarios: the non-not-found error
on the second create tick and the read error on the second update tick
both stop the loop there. -/
theorem wait_failFast_witness :
    (pollLoopFrom createPendingStates createTargetStates
        (fun tick => createRefresh (createFatalScenario tick)) 60 0 =
      (.Failed (.api { StatusCode := 500, Code := "internal", Message := "" }),
        1)) ∧
    (CreateStateWatcher.mk "Instance" "instance" createFatalScenario).Wait
      60 = (none, false) ∧
    (pollLoopFrom [UpdateStateUpdating] [UpdateStateUpdated]
        (fun tick => updateRefresh "terraform.nscale.com/abc"
          (updateFatalScenario tick)) 60 0 =
      (.Failed (.other "connection reset"), 1)) ∧
    (UpdateStateWatcher.mk "Instance" "instance" updateFatalScenario).Wait
      "terraform.nscale.com/abc" 60 = (none, false) := by
  have h1 := wait_failFast.1 Nat
    (CreateStateWatcher.mk "Instance" "instance" createFatalScenario) 1 60
    (.api { StatusCode := 500, Code := "internal", Message := "" })
    (by omega)
    (by intro i hi
        interval_cases i
        exact ⟨rfl, by decide, by decide⟩)
    rfl (by decide)
  have h2 := wait_failFast.2 Nat
    (UpdateStateWatcher.mk "Instance" "instance" updateFatalScenario)
    "terraform.nscale.com/abc" 1 60 (.other "connection reset")
    (by omega)
    (by intro i hi
        interval_cases i
        exact ⟨rfl, by decide, by decide⟩)
    rfl
  exact ⟨h1.1, h1.2, h2.1, h2.2⟩

/-- A character list is a prefix of itself followed by anything. -/
theorem charsIsPrefixOfAppend (l₁ l₂ : List Char) :
    l₁.isPrefixOf (l₁ ++ l₂) = true := by
  induction l₁ with
  | nil => simp [List.isPrefixOf]
  | cons a as ih => simp [List.isPrefixOf, ih]

/-- C6: RemoveOperationTags removes exactly the reserved-namespace tags
whose recorded timestamp is older than the 12-hour threshold: every tag of
the output comes from the input, a tag without the reserved namespace is
always preserved, and a reserved tag whose value parses to a timestamp is
in the output exactly when its age does not exceed the threshold. -/
theorem removeOperationTags_age_threshold (timeParse : String → Option Int)
    (now : Int) (ts l : List Tag) (tag : Tag)
    (hout : RemoveOperationTags timeParse now (some ts) = some l) :
    (tag ∈ l → tag ∈ ts) ∧
    (tag ∈ ts → startsWithTagNamespace tag.Name = false → tag ∈ l) ∧
    (∀ writtenAt : Int, tag ∈ ts → startsWithTagNamespace tag.Name = true →
      timeParse tag.Value = some writtenAt →
      (tag ∈ l ↔ now - writtenAt ≤ defaultOperationTagMaxAge)) := by
  rw [RemoveOperationTags, Option.some_inj] at hout
  subst hout
  refine ⟨?_, ?_, ?_⟩
  · intro hmem
    exact (List.mem_filter.mp hmem).1
  · intro hmem hns
    refine List.mem_filter.mpr ⟨hmem, ?_⟩
    simp [hns]
  · intro writtenAt hmem hns hparse
    rw [List.mem_filter]
    simp only [hns, hparse, if_pos]
    by_cases hage : now - writtenAt > defaultOperationTagMaxAge
    · simp [hage, hmem]
      omega
    · simp [hage, hmem]
      omega

/-- Sample user tag outside the reserved namespace. -/
def sampleUserTag : Tag := { Name := "env", Value := "prod" }

/-- Sample reserved tag younger than the threshold under sampleParse. -/
def sampleYoungTag : Tag := { Name := "terraform.nscale.com/op-b", Value := "young" }

/-- Sample reserved tag older than the threshold under sampleParse. -/
def sampleOldTag : Tag := { Name := "terraform.nscale.com/op-c", Value := "old" }

/-- Sample reserved tag whose value does not parse under sampleParse. -/
def sampleBadTag : Tag := { Name := "terraform.nscale.com/op-d", Value := "garbage" }

/-- Sample timestamp parser: the young value is 100 seconds after epoch,
the old value is the epoch, everything else fails to parse. -/
def sampleParse : String → Option Int := fun v =>
  if v == "young" then some 100 else if v == "old" then some 0 else none

/-- Witness for C6 at now = 43300: the user tag and the young reserved tag
are preserved, the old reserved tag is dropped. -/
theorem removeOperationTags_age_threshold_witness :
    sampleUserTag ∈ [sampleUserTag, sampleYoungTag] ∧
    (sampleYoungTag ∈ [sampleUserTag, sampleYoungTag] ↔
      (43300 : Int) - 100 ≤ defaultOperationTagMaxAge) ∧
    (sampleOldTag ∈ [sampleUserTag, sampleYoungTag] ↔
      (43300 : Int) - 0 ≤ defaultOperationTagMaxAge) := by
  have hout : RemoveOperationTags sampleParse 43300
      (some [sampleUserTag, sampleYoungTag, sampleOldTag]) =
      some [sampleUserTag, sampleYoungTag] := by decide
  refine ⟨?_, ?_, ?_⟩
  · exact (removeOperationTags_age_threshold sampleParse 43300
      [sampleUserTag, sampleYoungTag, sampleOldTag]
      [sampleUserTag, sampleYoungTag] sampleUserTag hout).2.1
      (by decide) (by decide)
  · exact (removeOperationTags_age_threshold sampleParse 43300
      [sampleUserTag, sampleYoungTag, sampleOldTag]
      [sampleUserTag, sampleYoungTag] sampleYoungTag hout).2.2 100
      (by decide) (by decide) (by decide)
  · exact (removeOperationTags_age_threshold sampleParse 43300
      [sampleUserTag, sampleYoungTag, sampleOldTag]
      [sampleUserTag, sampleYoungTag] sampleOldTag hout).2.2 0
      (by decide) (by decide) (by decide)

/-- C7: RemoveOperationTags is idempotent: applying it twice yields the
same result as applying it once, for every parser, every current time and
every tag collection. -/
theorem removeOperationTags_idempotent (timeParse : String → Option Int)
    (now : Int) (tags : Option (List Tag)) :
    RemoveOperationTags timeParse now (RemoveOperationTags timeParse now tags) =
      RemoveOperationTags timeParse now tags := by
  cases tags with
  | none => rfl
  | some ts => simp [RemoveOperationTags, List.filter_filter]

/-- C8: WriteOperationTag returns a key under the fixed reserved
namespace, appends exactly one entry with that key and the timestamp value
to the tag collection, creating the collection when absent and keeping all
pre-existing tags in place, and immediately afterwards HasOperationTag
holds of the returned key. -/
theorem writeOperationTag_appends (newUUIDStr nowStr : String)
    (metadata : ResourceWriteMetadata) :
    (WriteOperationTag newUUIDStr nowStr metadata).2 =
      TerraformOperationTagNamespace ++ newUUIDStr ∧
    startsWithTagNamespace (WriteOperationTag newUUIDStr nowStr metadata).2 =
      true ∧
    (∀ ts, metadata.Tags = some ts →
      (WriteOperationTag newUUIDStr nowStr metadata).1.Tags =
        some (ts ++ [{ Name := (WriteOperationTag newUUIDStr nowStr metadata).2,
                       Value := nowStr }])) ∧
    (metadata.Tags = none →
      (WriteOperationTag newUUIDStr nowStr metadata).1.Tags =
        some [{ Name := (WriteOperationTag newUUIDStr nowStr metadata).2,
                Value := nowStr }]) ∧
    HasOperationTag (WriteOperationTag newUUIDStr nowStr metadata).1.Tags
      (WriteOperationTag newUUIDStr nowStr metadata).2 = true := by
  obtain ⟨tagsOpt⟩ := metadata
  have hkey : (WriteOperationTag newUUIDStr nowStr ⟨tagsOpt⟩).2 =
      TerraformOperationTagNamespace ++ newUUIDStr := by
    cases tagsOpt <;> rfl
  refine ⟨hkey, ?_, ?_, ?_, ?_⟩
  · rw [hkey]
    show TerraformOperationTagNamespace.data.isPrefixOf
      (TerraformOperationTagNamespace ++ newUUIDStr).data = true
    rw [String.data_append]
    exact charsIsPrefixOfAppend _ _
  · intro ts hts
    cases tagsOpt with
    | none => cases hts
    | some ts0 =>
      cases hts
      rfl
  · intro hnone
    cases tagsOpt with
    | none => rfl
    | some ts0 => cases hnone
  · cases tagsOpt <;>
      simp [WriteOperationTag, HasOperationTag, List.any_append]

/-- Witness for C8 at a concrete UUID and timestamp, once with an existing
tag collection and once without one. -/
theorem writeOperationTag_appends_witness :
    ((WriteOperationTag "u-1" "2025-01-01T00:00:00Z"
        { Tags := some [{ Name := "env", Value := "prod" }] }).1.Tags =
      some [{ Name := "env", Value := "prod" },
            { Name := (WriteOperationTag "u-1" "2025-01-01T00:00:00Z"
                { Tags := some [{ Name := "env", Value := "prod" }] }).2,
              Value := "2025-01-01T00:00:00Z" }]) ∧
    ((WriteOperationTag "u-1" "2025-01-01T00:00:00Z" { Tags := none }).1.Tags =
      some [{ Name := (WriteOperationTag "u-1" "2025-01-01T00:00:00Z"
                { Tags := none }).2,
              Value := "2025-01-01T00:00:00Z" }]) := by
  constructor
  · exact (writeOperationTag_appends "u-1" "2025-01-01T00:00:00Z"
      { Tags := some [{ Name := "env", Value := "prod" }] }).2.2.1
      [{ Name := "env", Value := "prod" }] rfl
  · exact (writeOperationTag_appends "u-1" "2025-01-01T00:00:00Z"
      { Tags := none }).2.2.2.1 rfl

/-- C9: a reserved-namespace tag whose value does not parse as an RFC3339
timestamp is removed by RemoveOperationTags unconditionally, the same as
an over-age tag. -/
theorem removeOperationTags_unparsable (timeParse : String → Option Int)
    (now : Int) (ts l : List Tag) (tag : Tag)
    (hout : RemoveOperationTags timeParse now (some ts) = some l)
    (hns : startsWithTagNamespace tag.Name = true)
    (hparse : timeParse tag.Value = none) :
    tag ∉ l := by
  rw [RemoveOperationTags, Option.some_inj] at hout
  subst hout
  intro hmem
  have := (List.mem_filter.mp hmem).2
  simp [hns, hparse] at this

/-- Witness for C9: the reserved tag with an unparsable value is absent
from the output. -/
theorem removeOperationTags_unparsable_witness :
    sampleBadTag ∉ [sampleUserTag] := by
  have hout : RemoveOperationTags sampleParse 43300
      (some [sampleUserTag, sampleBadTag]) = some [sampleUserTag] := by decide
  exact removeOperationTags_unparsable sampleParse 43300
    [sampleUserTag, sampleBadTag] [sampleUserTag] sampleBadTag hout
    (by decide) (by decide)

/-- C10: both tag helpers are total on an absent tag collection:
HasOperationTag of nil is false for every key, and RemoveOperationTags of
nil is nil, for every parser and time. -/
theorem tagHelpers_total_on_nil (timeParse : String → Option Int) (now : Int)
    (k : String) :
    HasOperationTag none k = false ∧
    RemoveOperationTags timeParse now none = none :=
  ⟨rfl, rfl⟩

end Nscale
